import Mathlib

/-!
Verification of the micrograd_rust scalar autodiff engine (`src/engine.rs`)
and the small network layer (`src/network.rs`).

Embedding choice: the Rust code stores nodes as `Rc<RefCell<ValueData>>`
handles with interior mutability.  We model the heap as an arena: a
`Graph α` is the list of all allocated `ValueData` records in allocation
order, and a `Value` handle is the `Nat` index of its record.  Cloning a
`Value` clones the `Rc` (the pointer), so in the model a cloned handle is
the same index; `children` lists store handle indices.  Every constructor
in `engine.rs` allocates fresh cells at the end of the heap, so every
graph reachable through the public API has each node's children indices
strictly below the node's own index; the bounded recursion used for
`update_gradients` below never exhausts its bound on such graphs.

`f32` is modelled as an arbitrary `Field` (instantiated at `ℚ` for
concrete runs); the transcendental primitives `f32::tanh`, `f32::exp`
and `f32::powf` are opaque to the source code, so they are passed in as
an explicit record `FOps` of functions.
-/

namespace Micrograd

/-- `enum Operation` from engine.rs. -/
inductive Operation : Type
  | add
  | mul
  | tanh
  | exp
  | pow
deriving DecidableEq

/-- `struct ValueData` from engine.rs: payload, accumulated gradient,
operand handles, producing operation. -/
structure ValueData (α : Type) where
  data : α
  grad : α
  children : List Nat
  op : Option Operation
deriving DecidableEq

/-- The heap of allocated nodes, in allocation order.  A `Value` handle is
an index into this list. -/
abbrev Graph (α : Type) := List (ValueData α)

/-- The floating-point primitives used by the engine, opaque in the
source (`f32::tanh`, `f32::exp`, `f32::powf`). -/
structure FOps (α : Type) where
  tanhF : α → α
  expF : α → α
  powF : α → α → α

variable {α : Type} [Field α]

/-- Dereference a handle (out-of-range reads return a zero node; the
source would panic there, and no statement below reads out of range). -/
def nodeAt (g : Graph α) (i : Nat) : ValueData α :=
  g.getD i ⟨0, 0, [], none⟩

/-- `Value::get_data`. -/
def dataOf (g : Graph α) (i : Nat) : α := (nodeAt g i).data

/-- `Value::get_grad`. -/
def gradOf (g : Graph α) (i : Nat) : α := (nodeAt g i).grad

/-- `Value::get_children` (the handles stored in the node; cloning the
vector clones the `Rc` handles, i.e. yields the same indices). -/
def childrenOf (g : Graph α) (i : Nat) : List Nat := (nodeAt g i).children

/-- `Value::get_operation`. -/
def opOf (g : Graph α) (i : Nat) : Option Operation := (nodeAt g i).op

/-- `Value::set_grad`. -/
def setGrad (g : Graph α) (i : Nat) (v : α) : Graph α :=
  g.set i { nodeAt g i with grad := v }

/-- `Value::add_grad`: `grad += v` through the handle. -/
def addGrad (g : Graph α) (i : Nat) (v : α) : Graph α :=
  g.set i { nodeAt g i with grad := (nodeAt g i).grad + v }

/-- `Value::new`: allocate a leaf node, returning the new heap and the
fresh handle. -/
def newV (g : Graph α) (v : α) : Graph α × Nat :=
  (g ++ [⟨v, 0, [], none⟩], g.length)

/-- `Value::tanh`. -/
def tanhV (O : FOps α) (g : Graph α) (a : Nat) : Graph α × Nat :=
  (g ++ [⟨O.tanhF (dataOf g a), 0, [a], some .tanh⟩], g.length)

/-- `Value::exp`.  NOTE: the source records `Operation::Tanh` here. -/
def expV (O : FOps α) (g : Graph α) (a : Nat) : Graph α × Nat :=
  (g ++ [⟨O.expF (dataOf g a), 0, [a], some .tanh⟩], g.length)

/-- `Value::powf`: allocates a fresh leaf holding the exponent, then the
result node with children `[base, exponent]`. -/
def powfV (O : FOps α) (g : Graph α) (a : Nat) (x : α) : Graph α × Nat :=
  (g ++ [⟨x, 0, [], none⟩, ⟨O.powF (dataOf g a) x, 0, [a, g.length], some .pow⟩],
    g.length + 1)

/-- `impl Add for Value`. -/
def addVV (g : Graph α) (a b : Nat) : Graph α × Nat :=
  (g ++ [⟨dataOf g a + dataOf g b, 0, [a, b], some .add⟩], g.length)

/-- `impl Add<f32> for Value`: wraps the scalar as a fresh leaf. -/
def addVF (g : Graph α) (a : Nat) (s : α) : Graph α × Nat :=
  (g ++ [⟨s, 0, [], none⟩, ⟨dataOf g a + s, 0, [a, g.length], some .add⟩],
    g.length + 1)

/-- `impl Add<Value> for f32` (data computed as `rhs.get_data() + self`). -/
def addFV (s : α) (g : Graph α) (b : Nat) : Graph α × Nat :=
  (g ++ [⟨s, 0, [], none⟩, ⟨dataOf g b + s, 0, [b, g.length], some .add⟩],
    g.length + 1)

/-- `impl Sub for Value`.  NOTE: the source records `Operation::Add`. -/
def subVV (g : Graph α) (a b : Nat) : Graph α × Nat :=
  (g ++ [⟨dataOf g a - dataOf g b, 0, [a, b], some .add⟩], g.length)

/-- `impl Sub<f32> for Value` (tagged `Add` in the source). -/
def subVF (g : Graph α) (a : Nat) (s : α) : Graph α × Nat :=
  (g ++ [⟨s, 0, [], none⟩, ⟨dataOf g a - s, 0, [a, g.length], some .add⟩],
    g.length + 1)

/-- `impl Sub<Value> for f32` (data `self - rhs.get_data()`, tagged `Add`). -/
def subFV (s : α) (g : Graph α) (b : Nat) : Graph α × Nat :=
  (g ++ [⟨s, 0, [], none⟩, ⟨s - dataOf g b, 0, [b, g.length], some .add⟩],
    g.length + 1)

/-- `impl Mul for Value`. -/
def mulVV (g : Graph α) (a b : Nat) : Graph α × Nat :=
  (g ++ [⟨dataOf g a * dataOf g b, 0, [a, b], some .mul⟩], g.length)

/-- `impl Mul<f32> for Value`.  NOTE: the source records `Operation::Add`. -/
def mulVF (g : Graph α) (a : Nat) (s : α) : Graph α × Nat :=
  (g ++ [⟨s, 0, [], none⟩, ⟨dataOf g a * s, 0, [a, g.length], some .add⟩],
    g.length + 1)

/-- `impl Mul<Value> for f32` (data `rhs.get_data() * self`, tagged `Add`). -/
def mulFV (s : α) (g : Graph α) (b : Nat) : Graph α × Nat :=
  (g ++ [⟨s, 0, [], none⟩, ⟨dataOf g b * s, 0, [b, g.length], some .add⟩],
    g.length + 1)

/-- `impl Div for Value`.  NOTE: the source records `Operation::Mul`. -/
def divVV (g : Graph α) (a b : Nat) : Graph α × Nat :=
  (g ++ [⟨dataOf g a / dataOf g b, 0, [a, b], some .mul⟩], g.length)

/-- `impl Div<f32> for Value` (tagged `Add` in the source). -/
def divVF (g : Graph α) (a : Nat) (s : α) : Graph α × Nat :=
  (g ++ [⟨s, 0, [], none⟩, ⟨dataOf g a / s, 0, [a, g.length], some .add⟩],
    g.length + 1)

/-- `impl Div<Value> for f32`: the source computes
`data: rhs.get_data() / self`, i.e. node-value divided by the scalar
(with the scalar on the left of `/` in user code).  Tagged `Add`. -/
def divFV (s : α) (g : Graph α) (b : Nat) : Graph α × Nat :=
  (g ++ [⟨s, 0, [], none⟩, ⟨dataOf g b / s, 0, [b, g.length], some .add⟩],
    g.length + 1)

/-- The `match self.get_operation()` body of `Value::update_gradients`:
apply the local derivative rule of node `i` to its children, reading the
heap in source order.  `children[j]` out of range is modelled by the
default handle `0`; built graphs always have matching arity. -/
def applyRule (O : FOps α) (g : Graph α) (i : Nat) : Graph α :=
  let children := childrenOf g i
  let c0 := children.getD 0 0
  let c1 := children.getD 1 0
  match opOf g i with
  | some .add =>
      let g1 := addGrad g c0 (gradOf g i)
      addGrad g1 c1 (gradOf g1 i)
  | some .mul =>
      let g1 := addGrad g c0 (dataOf g c1 * gradOf g i)
      addGrad g1 c1 (dataOf g1 c0 * gradOf g1 i)
  | some .tanh =>
      addGrad g c0 (1 - O.powF (dataOf g i) 2)
  | some .exp =>
      addGrad g c0 (dataOf g i * gradOf g i)
  | some .pow =>
      addGrad g c0 (dataOf g c1 * O.powF (dataOf g c0) (dataOf g c1 - 1) * gradOf g i)
  | none => g

/-- `Value::update_gradients`: apply the node's local rule, then recurse
into each child, in order.  The recursion in the source is structural on
the heap graph; here it carries an explicit bound, which never runs out
on graphs built by the API above (children indices are strictly below
the parent's, so a bound of `i + 1` suffices at node `i`). -/
def updateGradients (O : FOps α) : Nat → Graph α → Nat → Graph α
  | 0, g, _ => g
  | fuel + 1, g, i =>
      let cs := childrenOf g i
      cs.foldl (fun h c => updateGradients O fuel h c) (applyRule O g i)

/-- `Value::backward`: seed the root's gradient with 1, then propagate. -/
def backward (O : FOps α) (g : Graph α) (i : Nat) : Graph α :=
  updateGradients O (i + 1) (setGrad g i 1) i

/-! ### The network layer (`src/network.rs`)

Weights and biases are leaf handles already present in the heap (their
random initialisation is an injectable capability, outside the engine).
-/

/-- `struct Neuron`: weight handles and a bias handle. -/
structure Neuron where
  w : List Nat
  b : Nat

/-- `Neuron::forward`: pairwise products of weights and inputs (`zip`
truncates at the shorter list, as in Rust), folded onto the bias with
`+`, then `tanh`.  Nodes are allocated in the order the lazy Rust
iterator chain forces them. -/
def neuronForward (O : FOps α) (g : Graph α) (n : Neuron) (x : List Nat) :
    Graph α × Nat :=
  let folded := (n.w.zip x).foldl
    (fun p wx =>
      let m := mulVV p.1 wx.1 wx.2
      addVV m.1 p.2 m.2)
    (g, n.b)
  tanhV O folded.1 folded.2

/-- `Layer::forward`: every neuron reads the same input vector. -/
def layerForward (O : FOps α) (g : Graph α) (l : List Neuron) (x : List Nat) :
    Graph α × List Nat :=
  l.foldl (fun p n =>
      let r := neuronForward O p.1 n x
      (r.1, p.2 ++ [r.2]))
    (g, [])

/-- `MLP::forward` as written in the source: every layer is applied to
the ORIGINAL input `x` (`self.layers.iter().map(|l| l.forward(x))`), the
activations are collected, and the last layer's activation vector is
returned. -/
def mlpForward (O : FOps α) (g : Graph α) (layers : List (List Neuron))
    (x : List Nat) : Graph α × List Nat :=
  let acc := layers.foldl (fun p l =>
      let r := layerForward O p.1 l x
      (r.1, p.2 ++ [r.2]))
    (g, ([] : List (List Nat)))
  (acc.1, acc.2.getD (acc.2.length - 1) [])

/-! ### Concrete fixtures

Concrete graphs are evaluated over `ℚ`, with computable stand-ins for
the opaque float primitives (`tanhF = id`, `expF = id`, and a `powF`
that agrees with real powers at natural exponents).  The fixtures below
only exercise graph structure and gradient plumbing, never a property of
the transcendental functions themselves. -/

def opsQ : FOps ℚ := ⟨id, id, fun x e => x ^ e.num.toNat⟩

/-- Fixture for C1: `a = Value::new(2)` (handle 0), `b = a + a`
(handle 1), `c = b * b` (handle 2). -/
def sharedSquare : Graph ℚ :=
  (mulVV (addVV (newV ([] : Graph ℚ) 2).1 0 0).1 1 1).1

/-- Fixture for C2: `a = Value::new(0)` (handle 0), `t = a.tanh()`
(handle 1), `two = Value::new(2)` (handle 2), `c = t * two` (handle 3). -/
def tanhTimesTwo : Graph ℚ :=
  (mulVV (newV (tanhV opsQ (newV ([] : Graph ℚ) 0).1 0).1 2).1 1 2).1

/-- Fixture for C3: `a = Value::new(1)` (handle 0), `e = a.exp()`
(handle 1). -/
def expGraph : Graph ℚ := (expV opsQ (newV ([] : Graph ℚ) 1).1 0).1

/-- Fixture for C4: `a = Value::new(5)` (handle 0), `b = Value::new(3)`
(handle 1), `c = a - b` (handle 2). -/
def subGraph : Graph ℚ := (subVV (newV (newV ([] : Graph ℚ) 5).1 3).1 0 1).1

/-- Fixture for C5/C9: a single leaf node holding 3. -/
def leafThree : Graph ℚ := (newV ([] : Graph ℚ) 3).1

/-- Fixture for C6: `a = Value::new(3)` (handle 0), `b = a + a`
(handle 1). -/
def sharedAdd : Graph ℚ := (addVV (newV ([] : Graph ℚ) 3).1 0 0).1

/-- Fixture for C9: a single leaf node holding 2. -/
def leafTwoQ : Graph ℚ := (newV ([] : Graph ℚ) 2).1

/-- Fixture for C8: heap of leaves for a 2-layer MLP.  Handles 0..3 are
the first layer's weights/biases (two neurons, one input each, weight 1,
bias 0); handles 4..6 the second layer's neuron (two inputs, weights 1,
bias 0); handle 7 the input value 1. -/
def mlpHeap : Graph ℚ :=
  [⟨1, 0, [], none⟩, ⟨0, 0, [], none⟩, ⟨1, 0, [], none⟩, ⟨0, 0, [], none⟩,
   ⟨1, 0, [], none⟩, ⟨1, 0, [], none⟩, ⟨0, 0, [], none⟩, ⟨1, 0, [], none⟩]

/-- First layer of the C8 fixture: two neurons of one input each. -/
def layerOne : List Neuron := [⟨[0], 1⟩, ⟨[2], 3⟩]

/-- Second layer of the C8 fixture: one neuron of two inputs, matching
the first layer's output count as `MLP::new` wires the sizes. -/
def layerTwo : List Neuron := [⟨[4, 5], 6⟩]

/-! ### Heap access lemmas -/

theorem nodeAt_append_lt (g l : Graph α) {j : Nat} (hj : j < g.length) :
    nodeAt (g ++ l) j = nodeAt g j :=
  List.getD_append g l _ j hj

theorem nodeAt_append_right (g l : Graph α) {j : Nat} (hj : g.length ≤ j) :
    nodeAt (g ++ l) j = nodeAt l (j - g.length) :=
  List.getD_append_right g l _ j hj

theorem nodeAt_set_self (g : Graph α) {i : Nat} (n : ValueData α)
    (hi : i < g.length) : nodeAt (g.set i n) i = n := by
  simp [nodeAt, List.getD, List.getElem?_set_eq_of_lt _ hi]

theorem nodeAt_set_ne (g : Graph α) {i j : Nat} (n : ValueData α)
    (h : i ≠ j) : nodeAt (g.set i n) j = nodeAt g j := by
  simp [nodeAt, List.getD, List.getElem?_set_ne h]

theorem nodeAt_append_one (g : Graph α) (A : ValueData α) :
    nodeAt (g ++ [A]) g.length = A := by
  rw [nodeAt_append_right g [A] (Nat.le_refl _)]
  simp [nodeAt]

theorem nodeAt_append_two_left (g : Graph α) (A B : ValueData α) :
    nodeAt (g ++ [A, B]) g.length = A := by
  rw [nodeAt_append_right g [A, B] (Nat.le_refl _)]
  simp [nodeAt]

theorem nodeAt_append_two_right (g : Graph α) (A B : ValueData α) :
    nodeAt (g ++ [A, B]) (g.length + 1) = B := by
  rw [nodeAt_append_right g [A, B] (Nat.le_succ_of_le (Nat.le_refl _))]
  simp [nodeAt]

/-- Reduction of `applyRule` at a node tagged `Pow` with children
`[a, k]`: exactly the base receives a contribution, computed from the
exponent node's value, the base's value and the node's own gradient. -/
theorem applyRule_pow (O : FOps α) (h : Graph α) (i a k : Nat)
    (hop : opOf h i = some Operation.pow) (hch : childrenOf h i = [a, k]) :
    applyRule O h i
      = addGrad h a
          (dataOf h k * O.powF (dataOf h a) (dataOf h k - 1) * gradOf h i) := by
  unfold applyRule
  rw [hch, hop]
  rfl


/-!
## Claim theorems
-/

/-- Claim C1 (refuted on the code): backward is required to apply each
reachable node's local rule exactly once, after all of its consumers
contributed, so each final gradient is the true partial derivative of
the root.  On `a = 2`, `b = a + a`, `c = b * b` the true derivative is
`dc/da = 4 * b.value = 16`, but the naive pre-order recursion of
`update_gradients` reaches the shared node `b` once per path and
re-applies its Add rule, leaving `a.gradient = 32`. -/
theorem backward_shared_node_overcounts :
    gradOf (backward opsQ sharedSquare 2) 0 = 32 ∧
    gradOf (backward opsQ sharedSquare 2) 0 ≠ 16 := by
  constructor <;>
    norm_num [backward, updateGradients, applyRule, setGrad, addGrad, nodeAt,
      gradOf, dataOf, childrenOf, opOf, newV, addVV, mulVV, sharedSquare, opsQ]

/-- Claim C2 (refuted on the code): the Tanh backward branch is required
to add `(1 - node.value^2) * node.gradient` into the operand's gradient,
but the source computes `1.0 - self.get_data().powf(2.0)` without the
`* self.get_grad()` factor.  On `a = 0`, `t = a.tanh()`, `c = t * 2`
(node-node multiply) the tanh node's gradient is 2, so the claim demands
`a.gradient = (1 - 0) * 2 = 2`, while the code leaves `a.gradient = 1`. -/
theorem tanh_rule_drops_upstream_grad :
    gradOf (backward opsQ tanhTimesTwo 3) 0 = 1 ∧
    gradOf (backward opsQ tanhTimesTwo 3) 0 ≠ 2 := by
  constructor <;>
    norm_num [backward, updateGradients, applyRule, setGrad, addGrad, nodeAt,
      gradOf, dataOf, childrenOf, opOf, newV, addVV, mulVV, tanhV, tanhTimesTwo,
      opsQ]

/-- Claim C3 (refuted on the code): the recorded `producing_operation`
tag is required to correspond to the operation's true local derivative
rule.  In the source, `Value::exp` tags its node `Operation::Tanh`,
`Sub` and scalar `Mul` tag `Operation::Add`, and `Div` tags
`Operation::Mul`; consequently backward on `e = a.exp()` with `a = 1`
applies the tanh rule and leaves `a.gradient = 1 - e.value^2 = 0`
instead of the Exp rule's `e.value * e.gradient = 1`. -/
theorem op_tags_mismatch_rules :
    opOf expGraph 1 = some Operation.tanh ∧
    gradOf (backward opsQ expGraph 1) 0 = 0 ∧
    gradOf (backward opsQ expGraph 1) 0 ≠ dataOf expGraph 1 * 1 ∧
    opOf subGraph 2 = some Operation.add ∧
    opOf (mulVF leafThree 0 (4 : ℚ)).1 (mulVF leafThree 0 (4 : ℚ)).2
      = some Operation.add ∧
    opOf (divVV (subGraph) 0 1).1 (divVV (subGraph) 0 1).2
      = some Operation.mul := by
  refine ⟨?_, ?_, ?_, ?_, ?_, ?_⟩ <;>
    norm_num [backward, updateGradients, applyRule, setGrad, addGrad, nodeAt,
      gradOf, dataOf, childrenOf, opOf, newV, subVV, mulVF, divVV, tanhV, expV,
      expGraph, subGraph, leafThree, opsQ]

/-- Claim C4 (refuted on the code): after backward from `c = a - b` the
operand `b` is required to receive the negation of `c`'s gradient.  The
source tags subtraction `Operation::Add`, so backward applies the Add
rule and `b` receives `c.gradient` unnegated: with `a = 5`, `b = 3`,
`b.gradient` ends at `1`, not `-1` (while `a` correctly receives `1`). -/
theorem sub_backward_not_negated :
    gradOf (backward opsQ subGraph 2) 1 = 1 ∧
    gradOf (backward opsQ subGraph 2) 1 ≠ -1 ∧
    gradOf (backward opsQ subGraph 2) 0 = 1 := by
  refine ⟨?_, ?_, ?_⟩ <;>
    norm_num [backward, updateGradients, applyRule, setGrad, addGrad, nodeAt,
      gradOf, dataOf, childrenOf, opOf, newV, subVV, subGraph, opsQ]

/-- Claim C5 (refuted on the code): the commuted raw-scalar-with-node
division `s / n` is required to produce a node whose value is
`s / n.value`.  The source (`impl Div<Value> for f32`) computes
`rhs.get_data() / self`, i.e. `n.value / s`: with `s = 6` and
`n.value = 3` the produced node holds `1/2` instead of `2`. -/
theorem scalar_div_value_commuted_wrong :
    dataOf (divFV (6 : ℚ) leafThree 0).1 (divFV (6 : ℚ) leafThree 0).2
      = 1 / 2 ∧
    dataOf (divFV (6 : ℚ) leafThree 0).1 (divFV (6 : ℚ) leafThree 0).2
      ≠ 6 / dataOf leafThree 0 := by
  constructor <;>
    norm_num [dataOf, nodeAt, newV, divFV, leafThree]

/-- Claim C6 (confirmed): with `a = Value::new(3)` and `b = a + a` (the
same node used as both operands), backward from `b` leaves
`a.gradient = 2` exactly — the Add rule fires once per occurrence of `a`
in the children list, and both contributions accumulate into the one
shared cell. -/
theorem add_shared_leaf_grad_two :
    gradOf (backward opsQ sharedAdd 1) 0 = 2 := by
  norm_num [backward, updateGradients, applyRule, setGrad, addGrad, nodeAt,
    gradOf, dataOf, childrenOf, opOf, newV, addVV, sharedAdd, opsQ]

/-- Claim C7 (confirmed): for a node produced by `Value::powf` on base
`a` with exponent `x` (stored as a fresh exponent leaf), applying the
node's backward rule with the node's current gradient `gr` adds
`k.value * powf(a.value, k.value - 1) * gr` into `a`'s gradient, and
the exponent leaf receives no gradient contribution (it stays 0). -/
theorem pow_rule_correct (O : FOps α) (g : Graph α) (a : Nat) (x gr : α)
    (ha : a < g.length) :
    gradOf (applyRule O (setGrad (powfV O g a x).1 (powfV O g a x).2 gr)
        (powfV O g a x).2) a
      = gradOf g a + x * O.powF (dataOf g a) (x - 1) * gr ∧
    gradOf (applyRule O (setGrad (powfV O g a x).1 (powfV O g a x).2 gr)
        (powfV O g a x).2) g.length = 0 := by
  have hH : setGrad (powfV O g a x).1 (powfV O g a x).2 gr
      = g ++ [⟨x, 0, [], none⟩,
              ⟨O.powF (dataOf g a) x, gr, [a, g.length], some Operation.pow⟩] := by
    show setGrad
        (g ++ [⟨x, 0, [], none⟩,
          ⟨O.powF (dataOf g a) x, 0, [a, g.length], some Operation.pow⟩])
        (g.length + 1) gr = _
    rw [setGrad, nodeAt_append_two_right,
      List.set_append_right _ _ (Nat.le_succ_of_le (Nat.le_refl _))]
    simp
  have hid : (powfV O g a x).2 = g.length + 1 := rfl
  rw [hH, hid]
  have hrule := applyRule_pow O
    (g ++ [⟨x, 0, [], none⟩,
      ⟨O.powF (dataOf g a) x, gr, [a, g.length], some Operation.pow⟩])
    (g.length + 1) a g.length
    (by rw [opOf, nodeAt_append_two_right])
    (by rw [childrenOf, nodeAt_append_two_right])
  rw [hrule]
  have hdk : dataOf (g ++ [⟨x, 0, [], none⟩,
      ⟨O.powF (dataOf g a) x, gr, [a, g.length], some Operation.pow⟩]) g.length
      = x := by
    rw [dataOf, nodeAt_append_two_left]
  have hda : dataOf (g ++ [⟨x, 0, [], none⟩,
      ⟨O.powF (dataOf g a) x, gr, [a, g.length], some Operation.pow⟩]) a
      = dataOf g a := by
    rw [dataOf, nodeAt_append_lt g _ ha]
    rfl
  have hgi : gradOf (g ++ [⟨x, 0, [], none⟩,
      ⟨O.powF (dataOf g a) x, gr, [a, g.length], some Operation.pow⟩])
      (g.length + 1) = gr := by
    rw [gradOf, nodeAt_append_two_right]
  rw [hdk, hda, hgi]
  have hAg : ∀ v' : α, addGrad (g ++ [⟨x, 0, [], none⟩,
      ⟨O.powF (dataOf g a) x, gr, [a, g.length], some Operation.pow⟩]) a v'
      = (g.set a { nodeAt g a with grad := (nodeAt g a).grad + v' }) ++
        [⟨x, 0, [], none⟩,
          ⟨O.powF (dataOf g a) x, gr, [a, g.length], some Operation.pow⟩] := by
    intro v'
    rw [addGrad, nodeAt_append_lt g _ ha, List.set_append_left _ _ ha]
  constructor
  · rw [hAg, gradOf, nodeAt_append_lt _ _ (by simpa using ha),
      nodeAt_set_self g _ ha]
    rfl
  · rw [hAg, gradOf, nodeAt_append_right _ _ (by simp)]
    simp [nodeAt]

/-- Witness for C7 at a concrete input: one leaf holding 3, base handle
0, exponent 3, upstream gradient 2. -/
theorem pow_rule_correct_witness :
    0 < leafThree.length ∧
    (gradOf (applyRule opsQ (setGrad (powfV opsQ leafThree 0 3).1
        (powfV opsQ leafThree 0 3).2 2) (powfV opsQ leafThree 0 3).2) 0
      = gradOf leafThree 0 + 3 * opsQ.powF (dataOf leafThree 0) (3 - 1) * 2 ∧
    gradOf (applyRule opsQ (setGrad (powfV opsQ leafThree 0 3).1
        (powfV opsQ leafThree 0 3).2 2) (powfV opsQ leafThree 0 3).2)
        leafThree.length = 0) :=
  ⟨by decide, pow_rule_correct opsQ leafThree 0 3 2 (by decide)⟩

/-- Claim C8 (refuted on the code): `MLP::forward` is required to feed
each layer's output vector to the next layer, but the source maps every
layer over the ORIGINAL input and returns the last layer's activations
on it.  On a 2-layer MLP (sizes 1 → 2 → 1, all weights 1, all biases 0,
identity activation stand-in, input 1) the code produces output value 1
— the second layer's neuron zips its two weights against the length-1
original input, silently dropping its second weight — while feeding the
first layer's outputs forward, as the spec demands, produces 2. -/
theorem mlp_forward_ignores_previous_layer :
    dataOf (mlpForward opsQ mlpHeap [layerOne, layerTwo] [7]).1
        ((mlpForward opsQ mlpHeap [layerOne, layerTwo] [7]).2.getD 0 0) = 1 ∧
    dataOf (layerForward opsQ (layerForward opsQ mlpHeap layerOne [7]).1
          layerTwo (layerForward opsQ mlpHeap layerOne [7]).2).1
        ((layerForward opsQ (layerForward opsQ mlpHeap layerOne [7]).1
          layerTwo (layerForward opsQ mlpHeap layerOne [7]).2).2.getD 0 0)
      = 2 := by
  constructor <;>
    norm_num [mlpForward, layerForward, neuronForward, tanhV, addVV, mulVV,
      newV, dataOf, gradOf, nodeAt, childrenOf, opsQ, mlpHeap, layerOne,
      layerTwo, List.zip, List.zipWith]

/-- Claim C9 counterexample: the claim's clause that every operation's
value follows the forward formula fails for the commuted raw-scalar
division: `8 / Value(2)` produces a node holding `2 / 8 = 1/4`, not
`8 / 2 = 4`. -/
theorem builder_value_not_forward_formula :
    dataOf (divFV (8 : ℚ) leafTwoQ 0).1 (divFV (8 : ℚ) leafTwoQ 0).2
      ≠ 8 / dataOf leafTwoQ 0 := by
  norm_num [dataOf, nodeAt, newV, divFV, leafTwoQ]

/-- Claim C9 as amended: every Graph Builder operation only appends to
the heap — it returns a brand-new node (and, for the scalar-mixed
variants, a fresh leaf wrapping the scalar) with gradient 0 and with
its operands and operation tag recorded, leaving every pre-existing node
(in particular its operands) untouched; each value is computed eagerly
by the operation's forward formula, except the commuted
raw-scalar-with-node division, which computes `node.value / scalar`.
The final conjuncts spell out the freshness, the gradient-0 field, the
forward value, and the frame property through the accessors for the
node-with-node Add, Mul and Tanh operations. -/
theorem builders_append_fresh_node (O : FOps α) (g : Graph α) (a b : Nat)
    (s : α) :
    newV g s = (g ++ [⟨s, 0, [], none⟩], g.length) ∧
    tanhV O g a
      = (g ++ [⟨O.tanhF (dataOf g a), 0, [a], some Operation.tanh⟩], g.length) ∧
    expV O g a
      = (g ++ [⟨O.expF (dataOf g a), 0, [a], some Operation.tanh⟩], g.length) ∧
    powfV O g a s
      = (g ++ [⟨s, 0, [], none⟩,
          ⟨O.powF (dataOf g a) s, 0, [a, g.length], some Operation.pow⟩],
          g.length + 1) ∧
    addVV g a b
      = (g ++ [⟨dataOf g a + dataOf g b, 0, [a, b], some Operation.add⟩],
          g.length) ∧
    addVF g a s
      = (g ++ [⟨s, 0, [], none⟩,
          ⟨dataOf g a + s, 0, [a, g.length], some Operation.add⟩],
          g.length + 1) ∧
    addFV s g b
      = (g ++ [⟨s, 0, [], none⟩,
          ⟨dataOf g b + s, 0, [b, g.length], some Operation.add⟩],
          g.length + 1) ∧
    subVV g a b
      = (g ++ [⟨dataOf g a - dataOf g b, 0, [a, b], some Operation.add⟩],
          g.length) ∧
    subVF g a s
      = (g ++ [⟨s, 0, [], none⟩,
          ⟨dataOf g a - s, 0, [a, g.length], some Operation.add⟩],
          g.length + 1) ∧
    subFV s g b
      = (g ++ [⟨s, 0, [], none⟩,
          ⟨s - dataOf g b, 0, [b, g.length], some Operation.add⟩],
          g.length + 1) ∧
    mulVV g a b
      = (g ++ [⟨dataOf g a * dataOf g b, 0, [a, b], some Operation.mul⟩],
          g.length) ∧
    mulVF g a s
      = (g ++ [⟨s, 0, [], none⟩,
          ⟨dataOf g a * s, 0, [a, g.length], some Operation.add⟩],
          g.length + 1) ∧
    mulFV s g b
      = (g ++ [⟨s, 0, [], none⟩,
          ⟨dataOf g b * s, 0, [b, g.length], some Operation.add⟩],
          g.length + 1) ∧
    divVV g a b
      = (g ++ [⟨dataOf g a / dataOf g b, 0, [a, b], some Operation.mul⟩],
          g.length) ∧
    divVF g a s
      = (g ++ [⟨s, 0, [], none⟩,
          ⟨dataOf g a / s, 0, [a, g.length], some Operation.add⟩],
          g.length + 1) ∧
    divFV s g b
      = (g ++ [⟨s, 0, [], none⟩,
          ⟨dataOf g b / s, 0, [b, g.length], some Operation.add⟩],
          g.length + 1) ∧
    gradOf (addVV g a b).1 (addVV g a b).2 = 0 ∧
    dataOf (addVV g a b).1 (addVV g a b).2 = dataOf g a + dataOf g b ∧
    (∀ j, j < g.length → nodeAt (addVV g a b).1 j = nodeAt g j) ∧
    gradOf (mulVV g a b).1 (mulVV g a b).2 = 0 ∧
    dataOf (mulVV g a b).1 (mulVV g a b).2 = dataOf g a * dataOf g b ∧
    (∀ j, j < g.length → nodeAt (mulVV g a b).1 j = nodeAt g j) ∧
    gradOf (tanhV O g a).1 (tanhV O g a).2 = 0 ∧
    dataOf (tanhV O g a).1 (tanhV O g a).2 = O.tanhF (dataOf g a) ∧
    (∀ j, j < g.length → nodeAt (tanhV O g a).1 j = nodeAt g j) := by
  refine ⟨rfl, rfl, rfl, rfl, rfl, rfl, rfl, rfl, rfl, rfl, rfl, rfl, rfl,
    rfl, rfl, rfl, ?_, ?_, ?_, ?_, ?_, ?_, ?_, ?_, ?_⟩
  · rw [show (addVV g a b).1
        = g ++ [⟨dataOf g a + dataOf g b, 0, [a, b], some Operation.add⟩]
        from rfl,
      show (addVV g a b).2 = g.length from rfl, gradOf, nodeAt_append_one]
  · rw [show (addVV g a b).1
        = g ++ [⟨dataOf g a + dataOf g b, 0, [a, b], some Operation.add⟩]
        from rfl,
      show (addVV g a b).2 = g.length from rfl, dataOf, nodeAt_append_one]
  · exact fun j hj => nodeAt_append_lt g _ hj
  · rw [show (mulVV g a b).1
        = g ++ [⟨dataOf g a * dataOf g b, 0, [a, b], some Operation.mul⟩]
        from rfl,
      show (mulVV g a b).2 = g.length from rfl, gradOf, nodeAt_append_one]
  · rw [show (mulVV g a b).1
        = g ++ [⟨dataOf g a * dataOf g b, 0, [a, b], some Operation.mul⟩]
        from rfl,
      show (mulVV g a b).2 = g.length from rfl, dataOf, nodeAt_append_one]
  · exact fun j hj => nodeAt_append_lt g _ hj
  · rw [show (tanhV O g a).1
        = g ++ [⟨O.tanhF (dataOf g a), 0, [a], some Operation.tanh⟩] from rfl,
      show (tanhV O g a).2 = g.length from rfl, gradOf, nodeAt_append_one]
  · rw [show (tanhV O g a).1
        = g ++ [⟨O.tanhF (dataOf g a), 0, [a], some Operation.tanh⟩] from rfl,
      show (tanhV O g a).2 = g.length from rfl, dataOf, nodeAt_append_one]
  · exact fun j hj => nodeAt_append_lt g _ hj

/-- Witness for C9's amended theorem at a concrete input, instantiating
the gradient-0 conjunct and the frame conjunct (at index 0) for Add. -/
theorem builders_append_fresh_node_witness :
    (0 : Nat) < leafThree.length ∧
    gradOf (addVV leafThree 0 0).1 (addVV leafThree 0 0).2 = 0 ∧
    nodeAt (addVV leafThree 0 0).1 0 = nodeAt leafThree 0 :=
  ⟨by decide,
    (builders_append_fresh_node opsQ leafThree 0 0
      1).2.2.2.2.2.2.2.2.2.2.2.2.2.2.2.2.1,
    (builders_append_fresh_node opsQ leafThree 0 0
      1).2.2.2.2.2.2.2.2.2.2.2.2.2.2.2.2.2.2.1 0 (by decide)⟩

/-- Claim C10 (confirmed): a handle is an index into the shared heap;
cloning a handle (`Rc::clone`) and reading a node's operand list yield
the same index, not a copy of the node.  For `b = a + a`, the recorded
operand list of `b` is literally `[a, a]`, and a gradient accumulated
through the handle read back from that operand list is observed through
the original handle `a` — the mechanism that makes shared-weight reuse
and in-place gradient accumulation work. -/
theorem handle_alias_grad_visible (g : Graph α) (a : Nat) (v : α)
    (ha : a < g.length) :
    childrenOf (addVV g a a).1 (addVV g a a).2 = [a, a] ∧
    gradOf (addGrad (addVV g a a).1
        ((childrenOf (addVV g a a).1 (addVV g a a).2).getD 0 0) v) a
      = gradOf g a + v := by
  have hc : childrenOf (addVV g a a).1 (addVV g a a).2 = [a, a] := by
    rw [show (addVV g a a).1
        = g ++ [⟨dataOf g a + dataOf g a, 0, [a, a], some Operation.add⟩]
        from rfl,
      show (addVV g a a).2 = g.length from rfl, childrenOf, nodeAt_append_one]
  refine ⟨hc, ?_⟩
  rw [hc, show ([a, a] : List Nat).getD 0 0 = a from rfl,
    show (addVV g a a).1
      = g ++ [⟨dataOf g a + dataOf g a, 0, [a, a], some Operation.add⟩]
      from rfl,
    addGrad, nodeAt_append_lt g _ ha, List.set_append_left _ _ ha, gradOf,
    nodeAt_append_lt _ _ (by simpa using ha), nodeAt_set_self g _ ha]
  rfl

/-- Witness for C10 at a concrete input: one leaf holding 3, handle 0,
accumulating 5. -/
theorem handle_alias_grad_visible_witness :
    (0 : Nat) < leafThree.length ∧
    (childrenOf (addVV leafThree 0 0).1 (addVV leafThree 0 0).2 = [0, 0] ∧
     gradOf (addGrad (addVV leafThree 0 0).1
        ((childrenOf (addVV leafThree 0 0).1 (addVV leafThree 0 0).2).getD 0 0)
        5) 0
      = gradOf leafThree 0 + 5) :=
  ⟨by decide, handle_alias_grad_visible leafThree 0 5 (by decide)⟩

end Micrograd
